import Mathlib

/-!
Verification development for the session and intent orchestration core of a
Discord chat bot (src/bot.py). The Python source is shallowly embedded:
pure helpers become Lean functions, the mutable per-session history becomes
explicit state passing, Python exceptions become `Except` values, and the
calls to the remote language model become an explicit list of oracle
responses consumed one call at a time. Machine-level concerns do not arise:
Python integers are unbounded (`Int`/`Nat`), and string indexing is by code
point, matching `List Char`.
-/

/-! ## Python JSON values

Model of the values `json.loads` can return. A separate constructor keeps
non-integral numbers distinct from integers, since the code tests
`isinstance(x, int)`; in Python a `bool` also satisfies that test
(`True` counts as the integer 1 and `False` as 0), which the embedding
reproduces in `pyIsInt` and `pyIntVal` below. -/
inductive Jsonv where
  | null
  | bool (b : Bool)
  | int (n : Int)
  | float (lexeme : String)
  | str (s : String)
  | arr (elems : List Jsonv)
  | obj (fields : List (String × Jsonv))

/-- Whitespace class of the Python regex `\s` (ASCII range). -/
def isPySpace (c : Char) : Bool :=
  c = ' ' || c = '\t' || c = '\n' || c = '\r' || c = '\x0b' || c = '\x0c'

/-- Whitespace accepted between JSON tokens by `json.loads`. -/
def isJsonWs (c : Char) : Bool :=
  c = ' ' || c = '\t' || c = '\n' || c = '\r'

/-- Index of the first occurrence of `needle` in the haystack, starting the
count at `i`; models the search part of `re.search` for a literal. -/
def findSubAux (needle : List Char) : List Char → Nat → Option Nat
  | [], i => if needle = [] then some i else none
  | c :: rest, i =>
    if needle.isPrefixOf (c :: rest) then some i else findSubAux needle rest (i + 1)

/-- Index of the first occurrence of `needle` in `hay`. -/
def findSub (needle hay : List Char) : Option Nat :=
  findSubAux needle hay 0

/-- Remove leading and trailing `\s` characters. -/
def trimPySpace (l : List Char) : List Char :=
  ((l.dropWhile isPySpace).reverse.dropWhile isPySpace).reverse

/-- Lookup in a Python dict modelled as an association list with unique keys;
first match wins. -/
def lookupField : List (String × Jsonv) → String → Option Jsonv
  | [], _ => none
  | (k, v) :: rest, key => if k = key then some v else lookupField rest key

/-- Dict update `d[key] = val`: replace the existing entry for `key`, or
append a new one. -/
def setField : List (String × Jsonv) → String → Jsonv → List (String × Jsonv)
  | [], key, val => [(key, val)]
  | (k, v) :: rest, key, val =>
    if k = key then (key, val) :: rest else (k, v) :: setField rest key val

/-! ## Model of `json.loads`

A recursive-descent reading of the JSON grammar as Python`s `json` module
accepts it with default options: objects, arrays, strings with escapes,
numbers (integral numbers kept exact, non-integral ones as `float`),
`true`/`false`/`null`, plus the non-standard `NaN`/`Infinity` keywords.
Recursion is by explicit fuel so every definition computes by `rfl`. -/

/-- Value of a hexadecimal digit. -/
def hexVal (c : Char) : Option Nat :=
  if '0' ≤ c ∧ c ≤ '9' then some (c.toNat - 48)
  else if 'a' ≤ c ∧ c ≤ 'f' then some (c.toNat - 87)
  else if 'A' ≤ c ∧ c ≤ 'F' then some (c.toNat - 55)
  else none

/-- Four hexadecimal digits, as used by the `\uXXXX` string escape. -/
def parseHex4 : List Char → Option (Nat × List Char)
  | a :: b :: c :: d :: rest =>
    match hexVal a, hexVal b, hexVal c, hexVal d with
    | some x, some y, some z, some w => some ((((x * 16 + y) * 16 + z) * 16 + w), rest)
    | _, _, _, _ => none
  | _ => none

/-- Single-character JSON string escapes. -/
def escChar (c : Char) : Option Char :=
  if c = '"' then some '"'
  else if c = '\\' then some '\\'
  else if c = '/' then some '/'
  else if c = 'b' then some '\x08'
  else if c = 'f' then some '\x0c'
  else if c = 'n' then some '\n'
  else if c = 'r' then some '\r'
  else if c = 't' then some '\t'
  else none

/-- Body of a JSON string after the opening quote, accumulating decoded
characters. Surrogate pairs in `\u` escapes are combined as `json.loads`
does; a raw control character is rejected (strict mode). -/
def parseStringBody : Nat → List Char → List Char → Option (String × List Char)
  | 0, _, _ => none
  | _ + 1, [], _ => none
  | fuel + 1, c :: rest, acc =>
    if c = '"' then some (String.mk acc.reverse, rest)
    else if c = '\\' then
      match rest with
      | [] => none
      | e :: rest2 =>
        if e = 'u' then
          match parseHex4 rest2 with
          | none => none
          | some (n, rest3) =>
            if 0xd800 ≤ n ∧ n < 0xdc00 then
              match rest3 with
              | '\\' :: 'u' :: rest4 =>
                match parseHex4 rest4 with
                | some (m, rest5) =>
                  if 0xdc00 ≤ m ∧ m < 0xe000 then
                    parseStringBody fuel rest5
                      (Char.ofNat (0x10000 + (n - 0xd800) * 0x400 + (m - 0xdc00)) :: acc)
                  else parseStringBody fuel rest3 (Char.ofNat n :: acc)
                | none => parseStringBody fuel rest3 (Char.ofNat n :: acc)
              | _ => parseStringBody fuel rest3 (Char.ofNat n :: acc)
            else parseStringBody fuel rest3 (Char.ofNat n :: acc)
        else
          match escChar e with
          | some ec => parseStringBody fuel rest2 (ec :: acc)
          | none => none
    else if c.toNat < 0x20 then none
    else parseStringBody fuel rest (c :: acc)

/-- Decimal value of a digit run, exactly as Python `int` reads it
(leading zeros permitted by `int`, excluded by the JSON grammar). -/
def natDigits (ds : List Char) : Nat :=
  ds.foldl (fun a c => a * 10 + (c.toNat - 48)) 0

/-- A JSON number. Integral numbers are kept exact; a fraction or exponent
makes the result a `float` carrying its lexeme. -/
def parseNumber (cs : List Char) : Option (Jsonv × List Char) :=
  let neg : Bool := match cs with
    | '-' :: _ => true
    | _ => false
  let cs1 := match cs with
    | '-' :: t => t
    | _ => cs
  let ds := cs1.takeWhile Char.isDigit
  if ds = [] then none
  else if 1 < ds.length ∧ ds.head? = some '0' then none
  else
    let rest1 := cs1.drop ds.length
    let frac : Option (List Char) := match rest1 with
      | '.' :: t =>
        let fs := t.takeWhile Char.isDigit
        if fs = [] then none else some fs
      | _ => none
    let rest2 := match rest1 with
      | '.' :: t =>
        let fs := t.takeWhile Char.isDigit
        if fs = [] then rest1 else t.drop fs.length
      | _ => rest1
    let hasExp : Bool := match rest2 with
      | 'e' :: t | 'E' :: t =>
        let t2 := match t with
          | '+' :: u => u
          | '-' :: u => u
          | _ => t
        !(t2.takeWhile Char.isDigit).isEmpty
      | _ => false
    let rest3 := match rest2 with
      | 'e' :: t | 'E' :: t =>
        let t2 := match t with
          | '+' :: u => u
          | '-' :: u => u
          | _ => t
        let es := t2.takeWhile Char.isDigit
        if es = [] then rest2 else t2.drop es.length
      | _ => rest2
    if frac.isNone ∧ hasExp = false then
      some (.int (if neg then -(natDigits ds : Int) else (natDigits ds : Int)), rest1)
    else
      some (.float (String.mk (cs.take (cs.length - rest3.length))), rest3)

mutual

/-- One JSON value, leading whitespace allowed. -/
def parseValue : Nat → List Char → Option (Jsonv × List Char)
  | 0, _ => none
  | fuel + 1, cs0 =>
    let cs := cs0.dropWhile isJsonWs
    match cs with
    | [] => none
    | c :: rest =>
      if c = '\x7b' then parseObjFirst fuel rest
      else if c = '[' then parseArrFirst fuel rest
      else if c = '"' then
        match parseStringBody (rest.length + 1) rest [] with
        | some (s, r) => some (.str s, r)
        | none => none
      else if ("null".data).isPrefixOf cs then some (.null, cs.drop 4)
      else if ("true".data).isPrefixOf cs then some (.bool true, cs.drop 4)
      else if ("false".data).isPrefixOf cs then some (.bool false, cs.drop 5)
      else if ("NaN".data).isPrefixOf cs then some (.float "NaN", cs.drop 3)
      else if ("Infinity".data).isPrefixOf cs then some (.float "Infinity", cs.drop 8)
      else if ("-Infinity".data).isPrefixOf cs then some (.float "-Infinity", cs.drop 9)
      else if c = '-' ∨ c.isDigit then parseNumber cs
      else none

/-- Object body after the opening brace: either an immediate closing brace
or a member list. -/
def parseObjFirst : Nat → List Char → Option (Jsonv × List Char)
  | 0, _ => none
  | fuel + 1, cs0 =>
    let cs := cs0.dropWhile isJsonWs
    match cs with
    | '\x7d' :: rest => some (.obj [], rest)
    | _ => parseMembers fuel cs []

/-- Comma-separated `"key": value` members; a repeated key overwrites the
earlier entry, as a Python dict does. -/
def parseMembers : Nat → List Char → List (String × Jsonv) → Option (Jsonv × List Char)
  | 0, _, _ => none
  | fuel + 1, cs0, acc =>
    match cs0.dropWhile isJsonWs with
    | '"' :: rest =>
      match parseStringBody (rest.length + 1) rest [] with
      | none => none
      | some (k, r1) =>
        match r1.dropWhile isJsonWs with
        | ':' :: r2 =>
          match parseValue fuel r2 with
          | none => none
          | some (v, r3) =>
            let acc2 := setField acc k v
            match r3.dropWhile isJsonWs with
            | ',' :: r4 => parseMembers fuel r4 acc2
            | '\x7d' :: r4 => some (.obj acc2, r4)
            | _ => none
        | _ => none
    | _ => none

/-- Array body after the opening bracket. -/
def parseArrFirst : Nat → List Char → Option (Jsonv × List Char)
  | 0, _ => none
  | fuel + 1, cs0 =>
    let cs := cs0.dropWhile isJsonWs
    match cs with
    | ']' :: rest => some (.arr [], rest)
    | _ => parseArrItems fuel cs []

/-- Comma-separated array elements, accumulated in reverse. -/
def parseArrItems : Nat → List Char → List Jsonv → Option (Jsonv × List Char)
  | 0, _, _ => none
  | fuel + 1, cs0, acc =>
    match parseValue fuel cs0 with
    | none => none
    | some (v, r) =>
      match r.dropWhile isJsonWs with
      | ',' :: r2 => parseArrItems fuel r2 (v :: acc)
      | ']' :: r2 => some (.arr (v :: acc).reverse, r2)
      | _ => none

end

/-- Model of `json.loads`: one JSON document with nothing but whitespace
around it. Fuel is generous: every two units consume at least one input
character. -/
def jsonParse (s : String) : Option Jsonv :=
  match parseValue (2 * s.data.length + 8) s.data with
  | some (v, rest) => if rest.dropWhile isJsonWs = [] then some v else none
  | none => none

/-! ## Structured response extraction (src/bot.py lines 219 to 256)

The code wraps JSON extraction and field normalization in
`try ... except (json.JSONDecodeError, ValueError)`. The embedding keeps
the two distinct failure classes apart: `caught` stands for the exceptions
the handler absorbs (`JSONDecodeError`, `ValueError`), while `typeErr`
stands for a `TypeError`, which the handler does not catch and which
therefore escapes the function. -/

inductive TryErr where
  | caught
  | typeErr
deriving DecidableEq

/-- Interior of the first fenced block matched by
`re.search(r'```json\s*([\s\S]*?)\s*```', text)`: the block opens at the
first occurrence of the literal ```` ```json ````, closes at the next
occurrence of ```` ``` ````, and the lazy group together with the greedy
`\s*` on both sides strips surrounding whitespace from the interior. -/
def findFenced (raw : String) : Option String :=
  let cs := raw.data
  match findSub ("```json".data) cs with
  | none => none
  | some i =>
    let rest := cs.drop (i + 7)
    match findSub ("```".data) rest with
    | none => none
    | some p => some (String.mk (trimPySpace (rest.take p)))

/-- Line 221 to 226: the JSON source is the first fenced block when one
exists, otherwise the whole completion text. -/
def extractJsonSource (raw : String) : String :=
  (findFenced raw).getD raw

/-- Python membership `needle in v` for a string needle: key lookup on a
dict, substring test on a string, element equality on a list, and a
`TypeError` on the remaining types (int, float, bool, None). -/
def pyContains (needle : String) (v : Jsonv) : Except Unit Bool :=
  match v with
  | .obj fields => .ok (lookupField fields needle).isSome
  | .str s => .ok (findSub needle.data s.data).isSome
  | .arr xs => .ok (xs.any fun x =>
      match x with
      | .str t => t = needle
      | _ => false)
  | _ => .error ()

/-- Python subscript `v[key]` for a string key: succeeds only on a dict
(the code only subscripts keys it has checked, so the missing-key case
cannot arise; like the `TypeError` on other types it is uncaught). -/
def pyGetItem (v : Jsonv) (key : String) : Except Unit Jsonv :=
  match v with
  | .obj fields =>
    match lookupField fields key with
    | some x => .ok x
    | none => .error ()
  | _ => .error ()

/-- Python subscript assignment `v[key] = val`: succeeds only on a dict. -/
def pySetItem (v : Jsonv) (key : String) (val : Jsonv) : Except Unit Jsonv :=
  match v with
  | .obj fields => .ok (.obj (setField fields key val))
  | _ => .error ()

/-- Python `isinstance(v, int)`: true for int and for bool. -/
def pyIsInt : Jsonv → Bool
  | .int _ => true
  | .bool _ => true
  | _ => false

/-- Integer value of a Python int-like value (`True` is 1, `False` is 0);
zero elsewhere (never consulted there). -/
def pyIntVal : Jsonv → Int
  | .int n => n
  | .bool b => if b then 1 else 0
  | _ => 0

/-- Line 239 and 241: `key not in result or not isinstance(result[key], int)
or result[key] <= 0`, with the short-circuit evaluation order of `or`. -/
def pyNeedsDefault (v : Jsonv) (key : String) : Except Unit Bool :=
  match pyContains key v with
  | .error e => .error e
  | .ok b =>
    if !b then .ok true
    else
      match pyGetItem v key with
      | .error e => .error e
      | .ok x => .ok (!pyIsInt x || decide (pyIntVal x ≤ 0))

/-- Lines 234 to 236: `if "image_prompt" not in result:
result["image_prompt"] = ""`. -/
def ipPhase (v : Jsonv) : Except Unit Jsonv :=
  match pyContains "image_prompt" v with
  | .error e => .error e
  | .ok haveIp => if haveIp then .ok v else pySetItem v "image_prompt" (.str "")

/-- Lines 239 to 242: default the dimension at `key` to 1024 when the test
of `pyNeedsDefault` holds. -/
def defaultPhase (key : String) (v : Jsonv) : Except Unit Jsonv :=
  match pyNeedsDefault v key with
  | .error e => .error e
  | .ok need => if need then pySetItem v key (.int 1024) else .ok v

/-- Lines 245 to 246: clamp both dimensions into [64, 4096] with
`max(64, min(4096, result[k]))`. -/
def clampPhase (v : Jsonv) : Except Unit Jsonv :=
  match pyGetItem v "width" with
  | .error e => .error e
  | .ok wv =>
    match pySetItem v "width" (.int (max 64 (min 4096 (pyIntVal wv)))) with
    | .error e => .error e
    | .ok r4 =>
      match pyGetItem r4 "height" with
      | .error e => .error e
      | .ok hv => pySetItem r4 "height" (.int (max 64 (min 4096 (pyIntVal hv))))

/-- The width/height test of lines 239 and 241 on a dict field: absent, or
present but not an int-like value (int or bool), or with value at most 0. -/
def needsDefaultB (o : Option Jsonv) : Bool :=
  match o with
  | none => true
  | some x => !pyIsInt x || decide (pyIntVal x ≤ 0)

/-- Pure form of the normalization on a dict (the only shape on which
`normalizeResult` can succeed). -/
def normalizeFields (fields : List (String × Jsonv)) : List (String × Jsonv) :=
  let f1 := if (lookupField fields "image_prompt").isSome then fields
            else setField fields "image_prompt" (.str "")
  let f2 := if needsDefaultB (lookupField f1 "width") then setField f1 "width" (.int 1024) else f1
  let f3 := if needsDefaultB (lookupField f2 "height") then setField f2 "height" (.int 1024) else f2
  let f4 := setField f3 "width"
      (.int (max 64 (min 4096 (pyIntVal ((lookupField f3 "width").getD .null)))))
  setField f4 "height"
      (.int (max 64 (min 4096 (pyIntVal ((lookupField f4 "height").getD .null)))))

/-- Lines 234 to 246: ensure `image_prompt` exists, default `width` and
`height` to 1024 when absent, non-int or nonpositive, then clamp both into
[64, 4096]. Every step is the corresponding dict operation; on a non-dict
value the first mutation or subscript raises `TypeError` (`.error`). -/
def normalizeResult (result : Jsonv) : Except Unit Jsonv :=
  match ipPhase result with
  | .error e => .error e
  | .ok r1 =>
    match defaultPhase "width" r1 with
    | .error e => .error e
    | .ok r2 =>
      match defaultPhase "height" r2 with
      | .error e => .error e
      | .ok r3 => clampPhase r3

/-- The normalized decision record the orchestrator returns: the final
value of the `result` dict, read at the five keys the callers use. -/
structure IntentDecision where
  need_image : Jsonv
  image_prompt : Jsonv
  width : Int
  height : Int
  reply : Jsonv

/-- Read a key from a dict with a null default (total helper used only to
project the final dict into the record). -/
def pyGetD (v : Jsonv) (key : String) : Jsonv :=
  match v with
  | .obj fields => (lookupField fields key).getD .null
  | _ => .null

/-- Lines 228 to 246 applied to the value `json.loads` produced: the
required-field check `all(key in result for key in ["need_image", "reply"])`
(short-circuiting, raising `ValueError` when it fails), then the
normalization. -/
def processParsed (result : Jsonv) : Except TryErr IntentDecision :=
  match pyContains "need_image" result with
  | .error _ => .error .typeErr
  | .ok b1 =>
    if !b1 then .error .caught
    else
      match pyContains "reply" result with
      | .error _ => .error .typeErr
      | .ok b2 =>
        if !b2 then .error .caught
        else
          match normalizeResult result with
          | .error _ => .error .typeErr
          | .ok r =>
            .ok ⟨pyGetD r "need_image", pyGetD r "image_prompt",
                 pyIntVal (pyGetD r "width"), pyIntVal (pyGetD r "height"),
                 pyGetD r "reply"⟩

/-- The whole try-block applied to a given JSON source string. -/
def processSource (s : String) : Except TryErr IntentDecision :=
  match jsonParse s with
  | none => .error .caught
  | some v => processParsed v

/-- Lines 219 to 246: extract the JSON source from the raw completion and
process it. Only the source extraction looks at the raw text. -/
def tryBlock (raw : String) : Except TryErr IntentDecision :=
  processSource (extractJsonSource raw)

/-- Lines 250 to 256: the record built by the `except` handler. -/
def fallbackDecision (raw : String) : IntentDecision :=
  ⟨.bool false, .str "", 1024, 1024, .str raw⟩

/-- Exception that escapes the structured-response step. -/
inductive ParseExn where
  | typeError
deriving DecidableEq

/-- Lines 219 to 256 as seen by the rest of `deepseek_chat`: a caught
failure becomes the fallback record, while a `TypeError` propagates. -/
def parseResponse (raw : String) : Except ParseExn IntentDecision :=
  match tryBlock raw with
  | .ok d => .ok d
  | .error .caught => .ok (fallbackDecision raw)
  | .error .typeErr => .error .typeError

/-! ## Session history and the orchestrator (src/bot.py lines 108 to 261)

The per-session list `conversation_history[session_key]` is passed
explicitly. An assistant turn stores whatever Python value sits in
`result["reply"]`, hence `content : Jsonv`; a user turn always stores the
message text. The language-model collaborator is an oracle list of
responses (`Except` for a remote failure), consumed one element per call,
so that the number of calls an execution makes is visible in how much of
the list it consumes. -/

/-- MAX_HISTORY_MESSAGES (line 109). -/
def MAX_HISTORY_MESSAGES : Nat := 50

/-- DISCORD_MAX_LEN (line 40). -/
def DISCORD_MAX_LEN : Nat := 2000

/-- DEFAULT_IMAGE_WIDTH and DEFAULT_IMAGE_HEIGHT (lines 113 to 114). -/
def DEFAULT_IMAGE_WIDTH : Int := 1024

def DEFAULT_IMAGE_HEIGHT : Int := 1024

/-- One entry of a session history list. -/
structure Turn where
  role : String
  content : Jsonv

/-- The user turn appended at line 199. -/
def userTurn (text : String) : Turn :=
  ⟨"user", .str text⟩

/-- Lines 202 to 205: after the user turn is appended, a history longer
than MAX_HISTORY_MESSAGES is replaced by its last MAX_HISTORY_MESSAGES
entries (`history[-MAX_HISTORY_MESSAGES:]`). -/
def trimHistory (l : List Turn) : List Turn :=
  if l.length > MAX_HISTORY_MESSAGES then l.drop (l.length - MAX_HISTORY_MESSAGES) else l

/-- Failure that ends `deepseek_chat` without a decision. -/
inductive ChatErr where
  | modelFailure (e : String)
  | parseTypeError
  | noResponse
deriving DecidableEq

/-- Lines 190 to 261, `deepseek_chat`: append the user turn, trim, call the
model (consuming the head of the oracle list), parse the completion, and on
success append the assistant turn carrying only `result["reply"]`.
Returns the outcome, the stored history after the call, and the unconsumed
oracle responses. A model failure or an escaping `TypeError` leaves the
history at the trimmed state with the user turn in place. -/
def deepseek_chat (history : List Turn) (userText : String)
    (responses : List (Except String String)) :
    Except ChatErr IntentDecision × List Turn × List (Except String String) :=
  let h2 := trimHistory (history ++ [userTurn userText])
  match responses with
  | [] => (.error .noResponse, h2, [])
  | .error e :: rest => (.error (.modelFailure e), h2, rest)
  | .ok raw :: rest =>
    match parseResponse raw with
    | .error .typeError => (.error .parseTypeError, h2, rest)
    | .ok d => (.ok d, h2 ++ [⟨"assistant", d.reply⟩], rest)

/-- Stored history after one inbound message whose model call returns the
completion `raw` (the driver used to iterate whole sessions). -/
def chatOnce (h : List Turn) (msg : String × String) : List Turn :=
  (deepseek_chat h msg.1 [Except.ok msg.2]).2.1

/-- Stored history after each of a sequence of inbound messages. -/
def chatTrace (h : List Turn) : List (String × String) → List (List Turn)
  | [] => []
  | msg :: rest =>
    let h2 := chatOnce h msg
    h2 :: chatTrace h2 rest

/-! ## Response dispatch (src/bot.py lines 133 to 137 and 264 to 417) -/

/-- Outbound effects of the message handler that matter to the claims: a
plain text send, or the image-generation network call with its
parameters. -/
inductive SendAction where
  | text (s : String)
  | imageRequest (model : String) (width height : Nat) (prompt : String)
deriving DecidableEq

/-- Chunks of at most `n` characters, by position (`s[i:i+n]` for `i` in
`range(0, len(s), n)`); fuel-driven so it computes by `rfl`, with fuel at
least the length of the list (each step consumes at least one character
when `n` is positive; the code only uses `n = 2000`). -/
def chunksOfF : Nat → Nat → List Char → List (List Char)
  | 0, _, _ => []
  | _ + 1, _, [] => []
  | fuel + 1, n, c :: rest => ((c :: rest).take n) :: chunksOfF fuel n ((c :: rest).drop n)

/-- Lengths of the successive chunks, computed at the level of lengths
alone (used to settle the concrete 5000-character instance without
evaluating 5000-element lists). -/
def chunkSizesF : Nat → Nat → Nat → List Nat
  | 0, _, _ => []
  | _ + 1, _, 0 => []
  | fuel + 1, n, m => min n m :: chunkSizesF fuel n (m - n)

/-- Lines 133 to 137, `chunk_text`: successive slices of length `n`. -/
def chunk_text (s : String) (n : Nat) : List String :=
  (chunksOfF s.data.length n s.data).map String.mk

/-- Usage message sent when CREATE_PIC_RE does not match (lines 354 to 358). -/
def createPicUsageText : String :=
  "格式错误。\n用法：`/create_pic model 1024 1024 prompts...`\n示例：`/create_pic flux 1024 1024 a cat`"

/-- Rejection message for out-of-range dimensions (line 368). -/
def dimErrorText : String :=
  "width/height 不合法（建议 64~4096 之间）。"

/-- Announcement sent before the manual image call (line 372). -/
def announceText (model : String) (w h : Nat) (prompt : String) : String :=
  "🎨 生成中：model=" ++ model ++ ", " ++ toString w ++ "x" ++ toString h ++
    ", prompt=`" ++ prompt ++ "`"

/-- A parsed manual image command. -/
structure ManualImageRequest where
  model : String
  width : Nat
  height : Nat
  prompt : String
deriving DecidableEq

/-- CREATE_PIC_RE.match (lines 35 to 38 and 352):
`^/create_pic\s+(\S+)\s+(\d+)\s+(\d+)\s+(.+)$` with DOTALL. Groups one to
three munch maximally (a shorter match would put a character of the wrong
class where the following token must match), so the match is computed by
maximal runs. The only backtracking the pattern admits is at the final
`\s+(.+)$`: when everything after the height digits is whitespace, `\s+`
gives one character back so that the greedy dot group can take it. -/
def createPicMatch (content : String) : Option ManualImageRequest :=
  let cs := content.data
  if ("/create_pic".data).isPrefixOf cs then
    let r0 := cs.drop 11
    if r0.takeWhile isPySpace = [] then none
    else
      let r1 := r0.dropWhile isPySpace
      let tok := r1.takeWhile fun c => !isPySpace c
      if tok = [] then none
      else
        let r2 := r1.dropWhile fun c => !isPySpace c
        if r2.takeWhile isPySpace = [] then none
        else
          let r3 := r2.dropWhile isPySpace
          let d1 := r3.takeWhile Char.isDigit
          if d1 = [] then none
          else
            let r4 := r3.drop d1.length
            if r4.takeWhile isPySpace = [] then none
            else
              let r5 := r4.dropWhile isPySpace
              let d2 := r5.takeWhile Char.isDigit
              if d2 = [] then none
              else
                let r6 := r5.drop d2.length
                let k := (r6.takeWhile isPySpace).length
                if k = 0 then none
                else if r6.drop k ≠ [] then
                  some ⟨String.mk tok, natDigits d1, natDigits d2, String.mk (r6.drop k)⟩
                else if 2 ≤ k then
                  some ⟨String.mk tok, natDigits d1, natDigits d2, String.mk (r6.drop (k - 1))⟩
                else none
  else none

/-- Lines 351 to 380, the `/create_pic` branch of `on_message`, up to the
first network call: an unmatched command draws the usage message, invalid
dimensions draw the rejection message, and only a valid request reaches the
image-generation collaborator. -/
def handleCreatePic (content : String) : List SendAction :=
  match createPicMatch content with
  | none => [.text createPicUsageText]
  | some r =>
    if r.width ≤ 0 ∨ r.height ≤ 0 ∨ r.width > 4096 ∨ r.height > 4096 then
      [.text dimErrorText]
    else
      [.text (announceText r.model r.width r.height r.prompt),
       .imageRequest r.model r.width r.height r.prompt]

/-- Line 417: the error text surfaced when `deepseek_chat` raises. -/
def deepseekFailText (e : String) : String :=
  "DeepSeek 调用失败：" ++ e

/-- Lines 383 to 417 restricted to the failure path: an exception out of
`deepseek_chat` becomes a single user-visible error send. -/
def dispatchChatFailure (e : String) : List SendAction :=
  [.text (deepseekFailText e)]

/-! ## Helper lemmas -/

theorem lookup_setField_self (f : List (String × Jsonv)) (k : String) (v : Jsonv) :
    lookupField (setField f k v) k = some v := by
  induction f with
  | nil => simp [setField, lookupField]
  | cons hd tl ih =>
    obtain ⟨k0, v0⟩ := hd
    by_cases h : k0 = k <;> simp [setField, lookupField, h, ih]

theorem lookup_setField_ne (f : List (String × Jsonv)) (k k' : String) (v : Jsonv)
    (h : k ≠ k') : lookupField (setField f k' v) k = lookupField f k := by
  induction f with
  | nil => simp [setField, lookupField, Ne.symm h]
  | cons hd tl ih =>
    obtain ⟨k0, v0⟩ := hd
    by_cases h0 : k0 = k'
    · subst h0
      simp [setField, lookupField, Ne.symm h, h]
    · by_cases h1 : k0 = k <;> simp [setField, lookupField, h0, h1, ih, h]

theorem trimHistory_suffix (l : List Turn) : trimHistory l <:+ l := by
  unfold trimHistory
  split
  · exact List.drop_suffix _ _
  · exact List.suffix_refl l

theorem trimHistory_length (l : List Turn) :
    (trimHistory l).length = min l.length MAX_HISTORY_MESSAGES := by
  unfold trimHistory MAX_HISTORY_MESSAGES
  by_cases h : l.length > 50
  · simp [h]
    omega
  · simp [h]
    omega

theorem trimHistory_getLast (l : List Turn) (t : Turn) :
    (trimHistory (l ++ [t])).getLast? = some t := by
  unfold trimHistory
  split
  · rename_i h
    rw [List.drop_append_of_le_length
      (by simp only [MAX_HISTORY_MESSAGES, List.length_append, List.length_singleton] at h ⊢
          omega)]
    simp
  · simp

theorem pyNeedsDefault_obj (f : List (String × Jsonv)) (k : String) :
    pyNeedsDefault (.obj f) k = .ok (needsDefaultB (lookupField f k)) := by
  unfold pyNeedsDefault pyContains pyGetItem needsDefaultB
  cases h : lookupField f k <;> simp [h]

theorem needsDefault_false_some (o : Option Jsonv) (h : needsDefaultB o = false) :
    ∃ x, o = some x := by
  cases o with
  | none => simp [needsDefaultB] at h
  | some x => exact ⟨x, rfl⟩

theorem ipPhase_obj (f : List (String × Jsonv)) :
    ipPhase (.obj f) = .ok (.obj (if (lookupField f "image_prompt").isSome then f
      else setField f "image_prompt" (.str ""))) := by
  unfold ipPhase
  by_cases h : (lookupField f "image_prompt").isSome <;> simp [pyContains, pySetItem, h]

theorem defaultPhase_obj (k : String) (f : List (String × Jsonv)) :
    defaultPhase k (.obj f) = .ok (.obj (if needsDefaultB (lookupField f k)
      then setField f k (.int 1024) else f)) := by
  unfold defaultPhase
  rw [pyNeedsDefault_obj]
  by_cases h : needsDefaultB (lookupField f k) <;> simp [pySetItem, h]

theorem clampPhase_obj (f : List (String × Jsonv)) (wv hv : Jsonv)
    (hw : lookupField f "width" = some wv) (hh : lookupField f "height" = some hv) :
    clampPhase (.obj f) = .ok (.obj (setField
      (setField f "width" (.int (max 64 (min 4096 (pyIntVal wv)))))
      "height" (.int (max 64 (min 4096 (pyIntVal hv)))))) := by
  unfold clampPhase
  have hh2 : lookupField (setField f "width" (.int (max 64 (min 4096 (pyIntVal wv))))) "height"
      = some hv := by
    rw [lookup_setField_ne _ _ _ _ (by decide)]
    exact hh
  simp [pyGetItem, pySetItem, hw, hh2]

theorem normalizeResult_obj (fields : List (String × Jsonv)) :
    normalizeResult (.obj fields) = .ok (.obj (normalizeFields fields)) := by
  have hwh : ("width" : String) ≠ "height" := by decide
  have hhw : ("height" : String) ≠ "width" := by decide
  unfold normalizeResult normalizeFields
  simp only [ipPhase_obj, defaultPhase_obj]
  set f1 := if (lookupField fields "image_prompt").isSome then fields
    else setField fields "image_prompt" (.str "") with hf1
  set f2 := if needsDefaultB (lookupField f1 "width") then setField f1 "width" (.int 1024)
    else f1 with hf2
  set f3 := if needsDefaultB (lookupField f2 "height") then setField f2 "height" (.int 1024)
    else f2 with hf3
  have hw2 : ∃ wv, lookupField f2 "width" = some wv := by
    rw [hf2]
    by_cases h : needsDefaultB (lookupField f1 "width")
    · simp [h, lookup_setField_self]
    · simp only [h, if_false, Bool.false_eq_true, ite_false]
      exact needsDefault_false_some _ (by simpa using h)
  obtain ⟨wv, hw2⟩ := hw2
  have hw3 : lookupField f3 "width" = some wv := by
    rw [hf3]
    by_cases h : needsDefaultB (lookupField f2 "height") <;>
      simp [h, lookup_setField_ne _ _ _ _ hwh, hw2]
  have hh3 : ∃ hv, lookupField f3 "height" = some hv := by
    rw [hf3]
    by_cases h : needsDefaultB (lookupField f2 "height")
    · simp [h, lookup_setField_self]
    · simp only [h, if_false, Bool.false_eq_true, ite_false]
      exact needsDefault_false_some _ (by simpa using h)
  obtain ⟨hv, hh3⟩ := hh3
  have h4 : lookupField (setField f3 "width" (.int (max 64 (min 4096 (pyIntVal wv)))))
      "height" = some hv := by
    rw [lookup_setField_ne _ _ _ _ hhw]
    exact hh3
  rw [clampPhase_obj f3 wv hv hw3 hh3, hw3]
  simp only [Option.getD_some]
  rw [h4]
  simp only [Option.getD_some]

theorem normalizeResult_str (s : String) : normalizeResult (.str s) = .error () := by
  obtain ⟨b1, hb1⟩ : ∃ b, pyContains "image_prompt" (.str s) = .ok b := ⟨_, rfl⟩
  obtain ⟨b2, hb2⟩ : ∃ b, pyContains "width" (.str s) = .ok b := ⟨_, rfl⟩
  unfold normalizeResult ipPhase defaultPhase pyNeedsDefault
  cases b1 <;> cases b2 <;> simp [hb1, hb2, pySetItem, pyGetItem]

theorem normalizeResult_arr (xs : List Jsonv) : normalizeResult (.arr xs) = .error () := by
  obtain ⟨b1, hb1⟩ : ∃ b, pyContains "image_prompt" (.arr xs) = .ok b := ⟨_, rfl⟩
  obtain ⟨b2, hb2⟩ : ∃ b, pyContains "width" (.arr xs) = .ok b := ⟨_, rfl⟩
  unfold normalizeResult ipPhase defaultPhase pyNeedsDefault
  cases b1 <;> cases b2 <;> simp [hb1, hb2, pySetItem, pyGetItem]

theorem normalizeFields_width_lookup (fields : List (String × Jsonv)) :
    ∃ x, lookupField (normalizeFields fields) "width" = some (.int (max 64 (min 4096 x))) := by
  simp only [normalizeFields]
  exact ⟨_, by rw [lookup_setField_ne _ _ _ _ (by decide), lookup_setField_self]⟩

theorem normalizeFields_height_lookup (fields : List (String × Jsonv)) :
    ∃ x, lookupField (normalizeFields fields) "height" = some (.int (max 64 (min 4096 x))) := by
  simp only [normalizeFields]
  exact ⟨_, by rw [lookup_setField_self]⟩

theorem normalizeFields_other (fields : List (String × Jsonv)) (k : String)
    (hk1 : k ≠ "image_prompt") (hk2 : k ≠ "width") (hk3 : k ≠ "height") :
    lookupField (normalizeFields fields) k = lookupField fields k := by
  simp only [normalizeFields]
  rw [lookup_setField_ne _ _ _ _ hk3, lookup_setField_ne _ _ _ _ hk2]
  set f1 := if (lookupField fields "image_prompt").isSome then fields
    else setField fields "image_prompt" (.str "") with hf1
  set f2 := if needsDefaultB (lookupField f1 "width") then setField f1 "width" (.int 1024)
    else f1 with hf2
  have e1 : lookupField f1 k = lookupField fields k := by
    rw [hf1]
    by_cases hip : (lookupField fields "image_prompt").isSome <;>
      simp [hip, lookup_setField_ne _ _ _ _ hk1]
  have e2 : lookupField f2 k = lookupField f1 k := by
    rw [hf2]
    by_cases hw : needsDefaultB (lookupField f1 "width") <;>
      simp [hw, lookup_setField_ne _ _ _ _ hk2]
  have e3 : lookupField (if needsDefaultB (lookupField f2 "height")
      then setField f2 "height" (.int 1024) else f2) k = lookupField f2 k := by
    by_cases hh : needsDefaultB (lookupField f2 "height") <;>
      simp [hh, lookup_setField_ne _ _ _ _ hk3]
  rw [e3, e2, e1]

theorem normalizeFields_ip_absent (fields : List (String × Jsonv))
    (h : lookupField fields "image_prompt" = none) :
    lookupField (normalizeFields fields) "image_prompt" = some (.str "") := by
  simp only [normalizeFields]
  rw [lookup_setField_ne _ _ _ _ (by decide : ("image_prompt" : String) ≠ "height"),
      lookup_setField_ne _ _ _ _ (by decide : ("image_prompt" : String) ≠ "width")]
  set f1 := setField fields "image_prompt" (.str "") with hf1
  have e0 : (if (lookupField fields "image_prompt").isSome then fields else f1) = f1 := by
    simp [h]
  rw [e0]
  have e1 : lookupField f1 "image_prompt" = some (.str "") := by
    rw [hf1]; exact lookup_setField_self _ _ _
  set f2 := if needsDefaultB (lookupField f1 "width") then setField f1 "width" (.int 1024)
    else f1 with hf2
  have e2 : lookupField f2 "image_prompt" = some (.str "") := by
    rw [hf2]
    by_cases hw : needsDefaultB (lookupField f1 "width") <;>
      simp [hw, lookup_setField_ne _ _ _ _ (by decide : ("image_prompt" : String) ≠ "width"), e1]
  by_cases hh : needsDefaultB (lookupField f2 "height") <;>
    simp [hh, lookup_setField_ne _ _ _ _ (by decide : ("image_prompt" : String) ≠ "height"), e2]

theorem normalizeFields_width_default (fields : List (String × Jsonv))
    (h : needsDefaultB (lookupField fields "width") = true) :
    lookupField (normalizeFields fields) "width" = some (.int 1024) := by
  simp only [normalizeFields]
  rw [lookup_setField_ne _ _ _ _ (by decide : ("width" : String) ≠ "height"),
      lookup_setField_self]
  set f1 := if (lookupField fields "image_prompt").isSome then fields
    else setField fields "image_prompt" (.str "") with hf1
  have e1 : lookupField f1 "width" = lookupField fields "width" := by
    rw [hf1]
    by_cases hip : (lookupField fields "image_prompt").isSome <;>
      simp [hip, lookup_setField_ne _ _ _ _ (by decide : ("width" : String) ≠ "image_prompt")]
  have hb : needsDefaultB (lookupField f1 "width") = true := by rw [e1]; exact h
  set f2 := if needsDefaultB (lookupField f1 "width") then setField f1 "width" (.int 1024)
    else f1 with hf2
  have e2 : lookupField f2 "width" = some (.int 1024) := by
    rw [hf2, hb]
    simp [lookup_setField_self]
  have e3 : lookupField (if needsDefaultB (lookupField f2 "height")
      then setField f2 "height" (.int 1024) else f2) "width" = some (.int 1024) := by
    by_cases hh : needsDefaultB (lookupField f2 "height") <;>
      simp [hh, lookup_setField_ne _ _ _ _ (by decide : ("width" : String) ≠ "height"), e2]
  rw [e3]
  norm_num [pyIntVal]

theorem normalizeFields_height_default (fields : List (String × Jsonv))
    (h : needsDefaultB (lookupField fields "height") = true) :
    lookupField (normalizeFields fields) "height" = some (.int 1024) := by
  simp only [normalizeFields]
  rw [lookup_setField_self]
  set f1 := if (lookupField fields "image_prompt").isSome then fields
    else setField fields "image_prompt" (.str "") with hf1
  have e1 : lookupField f1 "height" = lookupField fields "height" := by
    rw [hf1]
    by_cases hip : (lookupField fields "image_prompt").isSome <;>
      simp [hip, lookup_setField_ne _ _ _ _ (by decide : ("height" : String) ≠ "image_prompt")]
  set f2 := if needsDefaultB (lookupField f1 "width") then setField f1 "width" (.int 1024)
    else f1 with hf2
  have e2 : lookupField f2 "height" = lookupField fields "height" := by
    rw [hf2]
    by_cases hw : needsDefaultB (lookupField f1 "width") <;>
      simp [hw, lookup_setField_ne _ _ _ _ (by decide : ("height" : String) ≠ "width"), e1]
  have hb : needsDefaultB (lookupField f2 "height") = true := by rw [e2]; exact h
  set f3 := if needsDefaultB (lookupField f2 "height") then setField f2 "height" (.int 1024)
    else f2 with hf3
  have e3 : lookupField f3 "height" = some (.int 1024) := by
    rw [hf3, hb]
    simp [lookup_setField_self]
  have e4 : lookupField (setField f3 "width"
      (.int (max 64 (min 4096 (pyIntVal ((lookupField f3 "width").getD .null)))))) "height"
      = some (.int 1024) := by
    rw [lookup_setField_ne _ _ _ _ (by decide : ("height" : String) ≠ "width")]
    exact e3
  rw [e4]
  norm_num [pyIntVal]

theorem processParsed_ok (v : Jsonv) (d : IntentDecision) (h : processParsed v = .ok d) :
    ∃ fields, v = .obj fields ∧
      (lookupField fields "need_image").isSome = true ∧
      (lookupField fields "reply").isSome = true ∧
      d = ⟨pyGetD (.obj (normalizeFields fields)) "need_image",
           pyGetD (.obj (normalizeFields fields)) "image_prompt",
           pyIntVal (pyGetD (.obj (normalizeFields fields)) "width"),
           pyIntVal (pyGetD (.obj (normalizeFields fields)) "height"),
           pyGetD (.obj (normalizeFields fields)) "reply"⟩ := by
  cases v with
  | null => simp [processParsed, pyContains] at h
  | bool b => simp [processParsed, pyContains] at h
  | int n => simp [processParsed, pyContains] at h
  | float s => simp [processParsed, pyContains] at h
  | str s =>
    exfalso
    obtain ⟨b1, hb1⟩ : ∃ b, pyContains "need_image" (.str s) = .ok b := ⟨_, rfl⟩
    obtain ⟨b2, hb2⟩ : ∃ b, pyContains "reply" (.str s) = .ok b := ⟨_, rfl⟩
    unfold processParsed at h
    cases b1 <;> cases b2 <;> simp [hb1, hb2, normalizeResult_str] at h
  | arr xs =>
    exfalso
    obtain ⟨b1, hb1⟩ : ∃ b, pyContains "need_image" (.arr xs) = .ok b := ⟨_, rfl⟩
    obtain ⟨b2, hb2⟩ : ∃ b, pyContains "reply" (.arr xs) = .ok b := ⟨_, rfl⟩
    unfold processParsed at h
    cases b1 <;> cases b2 <;> simp [hb1, hb2, normalizeResult_arr] at h
  | obj fields =>
    by_cases h1 : (lookupField fields "need_image").isSome
    · by_cases h2 : (lookupField fields "reply").isSome
      · refine ⟨fields, rfl, h1, h2, ?_⟩
        simp [processParsed, pyContains, h1, h2, normalizeResult_obj] at h
        exact h.symm
      · exfalso
        simp [processParsed, pyContains, h1, h2] at h
    · exfalso
      simp [processParsed, pyContains, h1] at h

theorem processParsed_dims (v : Jsonv) (d : IntentDecision) (h : processParsed v = .ok d) :
    64 ≤ d.width ∧ d.width ≤ 4096 ∧ 64 ≤ d.height ∧ d.height ≤ 4096 := by
  obtain ⟨fields, rfl, h1, h2, hd⟩ := processParsed_ok v d h
  obtain ⟨x, hx⟩ := normalizeFields_width_lookup fields
  obtain ⟨y, hy⟩ := normalizeFields_height_lookup fields
  subst hd
  simp [pyGetD, hx, hy, pyIntVal]

theorem processParsed_obj (fields : List (String × Jsonv))
    (h1 : (lookupField fields "need_image").isSome = true)
    (h2 : (lookupField fields "reply").isSome = true) :
    processParsed (.obj fields)
      = .ok ⟨pyGetD (.obj (normalizeFields fields)) "need_image",
             pyGetD (.obj (normalizeFields fields)) "image_prompt",
             pyIntVal (pyGetD (.obj (normalizeFields fields)) "width"),
             pyIntVal (pyGetD (.obj (normalizeFields fields)) "height"),
             pyGetD (.obj (normalizeFields fields)) "reply"⟩ := by
  simp [processParsed, pyContains, h1, h2, normalizeResult_obj]

theorem chunksOfF_all_le (fuel n : Nat) (cs : List Char) :
    ∀ l ∈ chunksOfF fuel n cs, l.length ≤ n := by
  induction fuel generalizing cs with
  | zero => simp [chunksOfF]
  | succ fuel ih =>
    cases cs with
    | nil => simp [chunksOfF]
    | cons c rest =>
      intro l hl
      rcases List.mem_cons.mp hl with h | h
      · subst h
        rw [List.length_take]
        exact Nat.min_le_left _ _
      · exact ih _ _ h

theorem chunksOfF_flatten (fuel n : Nat) (cs : List Char) (hfuel : cs.length ≤ fuel)
    (hn : 1 ≤ n) : (chunksOfF fuel n cs).flatten = cs := by
  induction fuel generalizing cs with
  | zero =>
    cases cs with
    | nil => simp [chunksOfF]
    | cons c rest => simp at hfuel
  | succ fuel ih =>
    cases cs with
    | nil => simp [chunksOfF]
    | cons c rest =>
      have h2 : ((c :: rest).drop n).length ≤ fuel := by
        rw [List.length_drop]
        simp only [List.length_cons] at hfuel ⊢
        omega
      simp only [chunksOfF, List.flatten_cons, ih _ h2, List.take_append_drop]

theorem takeWhile_append_all (p : Char → Bool) (xs ys : List Char)
    (h : ∀ x ∈ xs, p x = true) : (xs ++ ys).takeWhile p = xs ++ ys.takeWhile p := by
  induction xs with
  | nil => simp
  | cons x xs ih =>
    simp only [List.cons_append, List.takeWhile_cons, h x (by simp)]
    simp [ih fun y hy => h y (by simp [hy])]

theorem dropWhile_append_all (p : Char → Bool) (xs ys : List Char)
    (h : ∀ x ∈ xs, p x = true) : (xs ++ ys).dropWhile p = ys.dropWhile p := by
  induction xs with
  | nil => simp
  | cons x xs ih =>
    simp only [List.cons_append, List.dropWhile_cons, h x (by simp)]
    simp [ih fun y hy => h y (by simp [hy])]

theorem takeWhile_cons_false (p : Char → Bool) (x : Char) (xs : List Char)
    (h : p x = false) : (x :: xs).takeWhile p = [] := by
  simp [List.takeWhile_cons, h]

theorem dropWhile_cons_false (p : Char → Bool) (x : Char) (xs : List Char)
    (h : p x = false) : (x :: xs).dropWhile p = x :: xs := by
  simp [List.dropWhile_cons, h]

theorem isDigit_not_pySpace (c : Char) (h : c.isDigit = true) : isPySpace c = false := by
  cases hs : isPySpace c
  · rfl
  · exfalso
    have hd : ((((c = ' ' ∨ c = '\t') ∨ c = '\n') ∨ c = '\r') ∨ c = '\x0b') ∨ c = '\x0c' := by
      simpa [isPySpace] using hs
    rcases hd with ((((rfl | rfl) | rfl) | rfl) | rfl) | rfl <;> exact absurd h (by decide)

theorem takeWhile_space_single (Y : List Char) (hY : ∀ c ∈ Y.head?, isPySpace c = false) :
    (' ' :: Y).takeWhile isPySpace = [' '] := by
  cases Y with
  | nil => rfl
  | cons a l =>
    have ha : isPySpace a = false := hY a (by simp)
    simp [List.takeWhile_cons, ha, show isPySpace ' ' = true by decide]

theorem dropWhile_space_single (Y : List Char) (hY : ∀ c ∈ Y.head?, isPySpace c = false) :
    (' ' :: Y).dropWhile isPySpace = Y := by
  cases Y with
  | nil => rfl
  | cons a l =>
    have ha : isPySpace a = false := hY a (by simp)
    simp [List.dropWhile_cons, ha, show isPySpace ' ' = true by decide]

theorem takeWhile_token (p : Char → Bool) (tok X : List Char)
    (htok : ∀ c ∈ tok, p c = true) (hX : ∀ c ∈ X.head?, p c = false) :
    (tok ++ X).takeWhile p = tok := by
  rw [takeWhile_append_all p tok X htok]
  cases X with
  | nil => simp
  | cons a l => simp [takeWhile_cons_false p a l (hX a (by simp))]

theorem dropWhile_token (p : Char → Bool) (tok X : List Char)
    (htok : ∀ c ∈ tok, p c = true) (hX : ∀ c ∈ X.head?, p c = false) :
    (tok ++ X).dropWhile p = X := by
  rw [dropWhile_append_all p tok X htok]
  cases X with
  | nil => rfl
  | cons a l => exact dropWhile_cons_false p a l (hX a (by simp))

theorem head_append_of_ne_nil (tok : List Char) (X : List Char) (h0 : tok ≠ [])
    (h1 : ∀ c ∈ tok, isPySpace c = false) :
    ∀ c ∈ (tok ++ X).head?, isPySpace c = false := by
  cases tok with
  | nil => exact absurd rfl h0
  | cons a l =>
    intro c hc
    simp at hc
    subst hc
    exact h1 a (by simp)

theorem head_append_digit (tok : List Char) (X : List Char) (h0 : tok ≠ [])
    (h1 : ∀ c ∈ tok, c.isDigit = true) :
    ∀ c ∈ (tok ++ X).head?, isPySpace c = false := by
  refine head_append_of_ne_nil tok X h0 fun c hc => ?_
  exact isDigit_not_pySpace c (h1 c hc)

theorem createPicMatch_build (model w h prompt : String)
    (hm0 : model.data ≠ []) (hm1 : ∀ c ∈ model.data, isPySpace c = false)
    (hw0 : w.data ≠ []) (hw1 : ∀ c ∈ w.data, c.isDigit = true)
    (hh0 : h.data ≠ []) (hh1 : ∀ c ∈ h.data, c.isDigit = true)
    (hp0 : prompt.data ≠ []) (hp1 : ∀ c ∈ prompt.data.head?, isPySpace c = false) :
    createPicMatch ("/create_pic " ++ model ++ " " ++ w ++ " " ++ h ++ " " ++ prompt)
      = some ⟨model, natDigits w.data, natDigits h.data, prompt⟩ := by
  have hcs : ("/create_pic " ++ model ++ " " ++ w ++ " " ++ h ++ " " ++ prompt).data
      = "/create_pic".data ++ (' ' :: (model.data ++ (' ' :: (w.data
        ++ (' ' :: (h.data ++ (' ' :: prompt.data))))))) := by
    simp [String.data_append, List.append_assoc]
  have hpre : ("/create_pic".data).isPrefixOf ("/create_pic".data
      ++ (' ' :: (model.data ++ (' ' :: (w.data
        ++ (' ' :: (h.data ++ (' ' :: prompt.data)))))))) = true := by
    rw [List.isPrefixOf_iff_prefix]
    exact List.prefix_append _ _
  have hdrop : ("/create_pic".data ++ (' ' :: (model.data ++ (' ' :: (w.data
      ++ (' ' :: (h.data ++ (' ' :: prompt.data)))))))).drop 11
      = ' ' :: (model.data ++ (' ' :: (w.data ++ (' ' :: (h.data ++ (' ' :: prompt.data)))))) := by
    rw [show (11 : Nat) = ("/create_pic".data).length from rfl]
    exact List.drop_left _ _
  have hmh : ∀ c ∈ (model.data ++ (' ' :: (w.data
      ++ (' ' :: (h.data ++ (' ' :: prompt.data)))))).head?, isPySpace c = false :=
    head_append_of_ne_nil _ _ hm0 hm1
  have s1 := takeWhile_space_single _ hmh
  have s2 := dropWhile_space_single _ hmh
  have s3 : (model.data ++ (' ' :: (w.data ++ (' ' :: (h.data
      ++ (' ' :: prompt.data)))))).takeWhile (fun c => !isPySpace c) = model.data := by
    refine takeWhile_token _ _ _ (fun c hc => by simp [hm1 c hc]) fun c hc => ?_
    simp at hc
    subst hc
    decide
  have s4 : (model.data ++ (' ' :: (w.data ++ (' ' :: (h.data
      ++ (' ' :: prompt.data)))))).dropWhile (fun c => !isPySpace c)
      = ' ' :: (w.data ++ (' ' :: (h.data ++ (' ' :: prompt.data)))) := by
    refine dropWhile_token _ _ _ (fun c hc => by simp [hm1 c hc]) fun c hc => ?_
    simp at hc
    subst hc
    decide
  have hwh : ∀ c ∈ (w.data ++ (' ' :: (h.data ++ (' ' :: prompt.data)))).head?,
      isPySpace c = false := head_append_digit _ _ hw0 hw1
  have s5 := takeWhile_space_single _ hwh
  have s6 := dropWhile_space_single _ hwh
  have s7 : (w.data ++ (' ' :: (h.data ++ (' ' :: prompt.data)))).takeWhile Char.isDigit
      = w.data := by
    refine takeWhile_token _ _ _ hw1 fun c hc => ?_
    simp at hc
    subst hc
    decide
  have s8 : (w.data ++ (' ' :: (h.data ++ (' ' :: prompt.data)))).drop w.data.length
      = ' ' :: (h.data ++ (' ' :: prompt.data)) := List.drop_left _ _
  have hhh : ∀ c ∈ (h.data ++ (' ' :: prompt.data)).head?, isPySpace c = false :=
    head_append_digit _ _ hh0 hh1
  have s9 := takeWhile_space_single _ hhh
  have s10 := dropWhile_space_single _ hhh
  have s11 : (h.data ++ (' ' :: prompt.data)).takeWhile Char.isDigit = h.data := by
    refine takeWhile_token _ _ _ hh1 fun c hc => ?_
    simp at hc
    subst hc
    decide
  have s12 : (h.data ++ (' ' :: prompt.data)).drop h.data.length = ' ' :: prompt.data :=
    List.drop_left _ _
  have s13 := takeWhile_space_single _ hp1
  simp only [createPicMatch, hcs, hpre, if_true, hdrop, s1, s2, s3, s4, s5, s6, s7, s8,
    s9, s10, s11, s12, s13]
  simp [hm0, hw0, hh0, hp0]

theorem chatOnce_length (hist : List Turn) (msg : String × String) :
    (chatOnce hist msg).length ≤ MAX_HISTORY_MESSAGES + 1 := by
  unfold chatOnce deepseek_chat
  cases hp : parseResponse msg.2 with
  | error e =>
    cases e
    simp only [hp]
    rw [trimHistory_length]
    simp only [MAX_HISTORY_MESSAGES]
    omega
  | ok d =>
    simp only [hp, List.length_append]
    rw [trimHistory_length]
    simp only [MAX_HISTORY_MESSAGES, List.length_singleton]
    omega

theorem chatTrace_bound (msgs : List (String × String)) (hist : List Turn) :
    ∀ st ∈ chatTrace hist msgs, st.length ≤ MAX_HISTORY_MESSAGES + 1 := by
  induction msgs generalizing hist with
  | nil => simp [chatTrace]
  | cons m ms ih =>
    intro st hst
    rcases List.mem_cons.mp (by simpa [chatTrace] using hst) with hh | hh
    · subst hh
      exact chatOnce_length hist m
    · exact ih (chatOnce hist m) st hh

theorem chunksOfF_map_length (fuel n : Nat) (cs : List Char) :
    (chunksOfF fuel n cs).map List.length = chunkSizesF fuel n cs.length := by
  induction fuel generalizing cs with
  | zero => simp [chunksOfF, chunkSizesF]
  | succ fuel ih =>
    cases cs with
    | nil => simp [chunksOfF, chunkSizesF]
    | cons c rest =>
      simp only [chunksOfF, List.map_cons, ih, List.length_take, List.length_drop,
        List.length_cons]
      rfl

/-! ## Claims -/

set_option maxRecDepth 40000 in
/-- C1 counterexample: starting from an empty session, after the 26th
processed message the stored turn sequence holds 51 entries, exceeding the
claimed bound of 50 — the length check runs before the model call, and the
assistant turn appended afterwards is never trimmed. -/
theorem history_bound_violated_at_26 :
    (List.foldl chatOnce [] (List.replicate 26 ("hi", "hello"))).length = 51 := by
  decide

/-- C1 (amended): trimming keeps a suffix of the log, so the oldest turns
are dropped first and the most recent ones survive in order; the bound 50
holds immediately after the user turn is appended (before the model call),
and across whole processed messages the stored history never exceeds 51
entries — it does reach 51 right after the assistant turn is appended. -/
theorem history_bound_amended :
    (∀ l : List Turn, trimHistory l <:+ l) ∧
    (∀ (hist : List Turn) (u : String),
      (trimHistory (hist ++ [userTurn u])).length ≤ MAX_HISTORY_MESSAGES) ∧
    (∀ (msgs : List (String × String)) (hist : List Turn),
      ∀ st ∈ chatTrace hist msgs, st.length ≤ MAX_HISTORY_MESSAGES + 1) := by
  refine ⟨trimHistory_suffix, ?_, fun msgs hist => chatTrace_bound msgs hist⟩
  intro hist u
  rw [trimHistory_length]
  exact Nat.min_le_right _ _

theorem history_bound_amended_witness :
    (chatOnce [] ("u", "r")).length ≤ MAX_HISTORY_MESSAGES + 1 :=
  history_bound_amended.2.2 [("u", "r")] [] (chatOnce [] ("u", "r")) (List.Mem.head _)

/-- C2 (code bug): a completion that is valid JSON but not a dict — here
the text "3" — makes the membership test `"need_image" in result` raise
`TypeError`, which `except (json.JSONDecodeError, ValueError)` does not
catch: the exception escapes the parsing step and `deepseek_chat` instead
of degrading to the fallback record, and the history keeps only the user
turn. -/
theorem typeError_escapes_on_nonobject_json :
    jsonParse "3" = some (.int 3) ∧
    parseResponse "3" = .error .typeError ∧
    (deepseek_chat [] "hi" [.ok "3"]).1 = .error .parseTypeError ∧
    (deepseek_chat [] "hi" [.ok "3"]).2.1 = [userTurn "hi"] :=
  ⟨rfl, rfl, rfl, rfl⟩

/-- C7 (confirmed): a model-call failure consumes exactly one oracle
response and is propagated; the stored history is the trimmed state whose
last entry is the user turn appended in step 1, and it is a suffix of the
prior history plus that turn, so no assistant turn is gained; the caller
surfaces the error text. -/
theorem model_failure_no_retry :
    ∀ (hist : List Turn) (u e : String) (rest : List (Except String String)),
      deepseek_chat hist u (.error e :: rest)
        = (.error (.modelFailure e), trimHistory (hist ++ [userTurn u]), rest) ∧
      (trimHistory (hist ++ [userTurn u])).getLast? = some (userTurn u) ∧
      trimHistory (hist ++ [userTurn u]) <:+ hist ++ [userTurn u] ∧
      dispatchChatFailure e = [.text (deepseekFailText e)] :=
  fun hist u e _rest =>
    ⟨rfl, trimHistory_getLast hist (userTurn u), trimHistory_suffix _, rfl⟩

/-- C8 (confirmed): the dispatcher splits a reply purely by position into
chunks of at most 2000 units whose in-order concatenation is the original
text, and a 5000-character reply is sent as exactly three chunks of sizes
2000, 2000 and 1000. -/
theorem reply_chunking_spec :
    (∀ s : String, ∀ c ∈ chunk_text s DISCORD_MAX_LEN, c.length ≤ 2000) ∧
    (∀ s : String, ((chunk_text s DISCORD_MAX_LEN).map String.data).flatten = s.data) ∧
    (chunk_text (String.mk (List.replicate 5000 'a')) DISCORD_MAX_LEN).map String.length
      = [2000, 2000, 1000] := by
  refine ⟨?_, ?_, ?_⟩
  · intro s c hc
    unfold chunk_text at hc
    rcases List.mem_map.mp hc with ⟨l, hl, rfl⟩
    have hle := chunksOfF_all_le s.data.length DISCORD_MAX_LEN s.data l hl
    simpa [String.length_mk, DISCORD_MAX_LEN] using hle
  · intro s
    unfold chunk_text
    rw [List.map_map]
    have he : String.data ∘ String.mk = id := funext fun l => rfl
    rw [he, List.map_id]
    exact chunksOfF_flatten _ _ _ le_rfl (by norm_num [DISCORD_MAX_LEN])
  · have hdata : (String.mk (List.replicate 5000 'a')).data = List.replicate 5000 'a' := rfl
    unfold chunk_text
    rw [hdata, List.length_replicate, List.map_map,
      show String.length ∘ String.mk = List.length from funext fun l => String.length_mk l,
      chunksOfF_map_length, List.length_replicate]
    decide

theorem reply_chunking_spec_witness : ("abcde" : String).length ≤ 2000 :=
  reply_chunking_spec.1 "abcde" "abcde" (by decide)

/-- C5 (confirmed): whenever the parsing step returns a decision — parse
success or fallback — the width and height of that decision lie in the
interval [64, 4096]. -/
theorem parser_dims_in_range :
    ∀ (raw : String) (d : IntentDecision), parseResponse raw = .ok d →
      64 ≤ d.width ∧ d.width ≤ 4096 ∧ 64 ≤ d.height ∧ d.height ≤ 4096 := by
  intro raw d hok
  unfold parseResponse at hok
  cases ht : tryBlock raw with
  | ok d0 =>
    rw [ht] at hok
    simp only [Except.ok.injEq] at hok
    subst hok
    unfold tryBlock processSource at ht
    cases hj : jsonParse (extractJsonSource raw) with
    | none =>
      rw [hj] at ht
      exact absurd ht (by simp)
    | some v =>
      rw [hj] at ht
      exact processParsed_dims v d0 ht
  | error e =>
    cases e with
    | caught =>
      rw [ht] at hok
      simp only [Except.ok.injEq] at hok
      subst hok
      norm_num [fallbackDecision]
    | typeErr =>
      rw [ht] at hok
      simp at hok

theorem parser_dims_in_range_witness :
    64 ≤ (fallbackDecision "x").width ∧ (fallbackDecision "x").width ≤ 4096 ∧
    64 ≤ (fallbackDecision "x").height ∧ (fallbackDecision "x").height ≤ 4096 :=
  parser_dims_in_range "x" (fallbackDecision "x") rfl

/-- C4 (confirmed): for a completion whose JSON source is malformed, or
parses to an object missing `need_image` or `reply`, the parsing step
returns exactly the fallback record: needImage false, empty image prompt,
1024 by 1024, and the raw completion text verbatim as the reply. -/
theorem parse_failure_fallback_exact :
    ∀ raw : String,
      (jsonParse (extractJsonSource raw) = none ∨
        ∃ fields, jsonParse (extractJsonSource raw) = some (.obj fields) ∧
          ((lookupField fields "need_image").isSome = false ∨
            (lookupField fields "reply").isSome = false)) →
      parseResponse raw = .ok (fallbackDecision raw) ∧
      fallbackDecision raw = ⟨.bool false, .str "", 1024, 1024, .str raw⟩ := by
  intro raw hfail
  refine ⟨?_, rfl⟩
  unfold parseResponse tryBlock processSource
  rcases hfail with hnone | ⟨fields, hobj, hmiss⟩
  · rw [hnone]
  · rw [hobj]
    rcases hmiss with hm | hm
    · simp [processParsed, pyContains, hm]
    · by_cases h1 : (lookupField fields "need_image").isSome <;>
        simp [processParsed, pyContains, h1, hm]

theorem parse_failure_fallback_exact_witness :
    parseResponse "not json" = .ok (fallbackDecision "not json") ∧
    fallbackDecision "not json" = ⟨.bool false, .str "", 1024, 1024, .str "not json"⟩ :=
  parse_failure_fallback_exact "not json" (Or.inl rfl)

/-- C6 counterexample: with the field `"width": true` — a JSON boolean, not
an integer — the code does not substitute the default 1024: Python treats
`True` as the integer 1 (`isinstance(True, int)` holds and 1 > 0), so the
value is kept and then clamped to 64. -/
theorem width_boolean_not_defaulted_cex :
    lookupField [("need_image", Jsonv.bool false), ("reply", Jsonv.str "x"),
      ("width", Jsonv.bool true)] "width" = some (.bool true) ∧
    (processParsed (.obj [("need_image", Jsonv.bool false), ("reply", Jsonv.str "x"),
      ("width", Jsonv.bool true)])).map IntentDecision.width = .ok 64 :=
  ⟨rfl, rfl⟩

/-- C6 (amended): for a parsed object holding the required fields, an
absent `image_prompt` is set to the empty string, and a dimension that is
absent, not an int-like value (int or bool — Python bools pass the
`isinstance(int)` test as 1 and 0), or with integer value at most 0 is
replaced by the default 1024; in particular the example object with only
`need_image` and `reply` yields imagePrompt = "" and width = height =
1024. -/
theorem field_normalization_amended :
    (∀ fields : List (String × Jsonv),
      (lookupField fields "need_image").isSome = true →
      (lookupField fields "reply").isSome = true →
      (∃ d, processParsed (.obj fields) = .ok d) ∧
      (lookupField fields "image_prompt" = none →
        ∀ d, processParsed (.obj fields) = .ok d → d.image_prompt = .str "") ∧
      (needsDefaultB (lookupField fields "width") = true →
        ∀ d, processParsed (.obj fields) = .ok d → d.width = 1024) ∧
      (needsDefaultB (lookupField fields "height") = true →
        ∀ d, processParsed (.obj fields) = .ok d → d.height = 1024)) ∧
    processParsed (.obj [("need_image", Jsonv.bool true), ("reply", Jsonv.str "ok")])
      = .ok ⟨.bool true, .str "", 1024, 1024, .str "ok"⟩ := by
  refine ⟨?_, rfl⟩
  intro fields h1 h2
  have hpp := processParsed_obj fields h1 h2
  refine ⟨⟨_, hpp⟩, ?_, ?_, ?_⟩
  · intro hip d hd
    rw [hpp] at hd
    simp only [Except.ok.injEq] at hd
    subst hd
    simp [pyGetD, normalizeFields_ip_absent fields hip]
  · intro hwd d hd
    rw [hpp] at hd
    simp only [Except.ok.injEq] at hd
    subst hd
    simp [pyGetD, normalizeFields_width_default fields hwd, pyIntVal]
  · intro hhd d hd
    rw [hpp] at hd
    simp only [Except.ok.injEq] at hd
    subst hd
    simp [pyGetD, normalizeFields_height_default fields hhd, pyIntVal]

theorem field_normalization_amended_witness :
    (⟨Jsonv.bool true, Jsonv.str "", 1024, 1024, Jsonv.str "ok"⟩ : IntentDecision).width
      = 1024 :=
  (field_normalization_amended.1
      [("need_image", Jsonv.bool true), ("reply", Jsonv.str "ok"), ("width", Jsonv.int 0)]
      rfl rfl).2.2.1 rfl _ rfl

/-- C3 counterexample: when the completion is a JSON object missing the
required `reply` field, parsing falls back and the assistant turn appended
to the history stores the raw structured JSON payload verbatim. -/
theorem assistant_turn_stores_raw_payload_cex :
    jsonParse "\x7b\"need_image\": true\x7d" = some (.obj [("need_image", .bool true)]) ∧
    (deepseek_chat [] "hi" [.ok "\x7b\"need_image\": true\x7d"]).2.1
      = [userTurn "hi", ⟨"assistant", .str "\x7b\"need_image\": true\x7d"⟩] :=
  ⟨rfl, rfl⟩

/-- C3 (amended): on every successful call the assistant turn appended to
the history carries exactly the reply field of the returned decision; when
the completion parsed as an object with the required fields, that reply is
the value of the `reply` key of the object — never the whole payload. When
parsing falls back, the stored reply is the raw completion verbatim, which
may itself be JSON text. -/
theorem assistant_turn_reply_only :
    (∀ (hist : List Turn) (u raw : String) (rest : List (Except String String))
        (d : IntentDecision),
      (deepseek_chat hist u (.ok raw :: rest)).1 = .ok d →
      (deepseek_chat hist u (.ok raw :: rest)).2.1
        = trimHistory (hist ++ [userTurn u]) ++ [⟨"assistant", d.reply⟩]) ∧
    (∀ (raw : String) (fields : List (String × Jsonv)) (d : IntentDecision),
      jsonParse (extractJsonSource raw) = some (.obj fields) →
      (lookupField fields "need_image").isSome = true →
      (lookupField fields "reply").isSome = true →
      parseResponse raw = .ok d →
      d.reply = (lookupField fields "reply").getD .null) := by
  constructor
  · intro hist u raw rest d hok
    unfold deepseek_chat at hok ⊢
    cases hp : parseResponse raw with
    | error e =>
      cases e
      simp only [hp] at hok
      exact absurd hok (by simp)
    | ok d0 =>
      simp only [hp] at hok ⊢
      simp only [Except.ok.injEq] at hok
      subst hok
      rfl
  · intro raw fields d hjson h1 h2 hok
    unfold parseResponse tryBlock processSource at hok
    simp only [hjson, processParsed_obj fields h1 h2] at hok
    simp only [Except.ok.injEq] at hok
    subst hok
    simp [pyGetD, normalizeFields_other fields "reply" (by decide) (by decide) (by decide)]

theorem assistant_turn_reply_only_witness :
    (deepseek_chat [] "u" [.ok "\x7b\"need_image\": false, \"reply\": \"hi\"\x7d"]).2.1
      = trimHistory ([] ++ [userTurn "u"])
        ++ [⟨"assistant", (⟨Jsonv.bool false, Jsonv.str "", 1024, 1024,
              Jsonv.str "hi"⟩ : IntentDecision).reply⟩] :=
  assistant_turn_reply_only.1 [] "u" "\x7b\"need_image\": false, \"reply\": \"hi\"\x7d" []
    ⟨Jsonv.bool false, Jsonv.str "", 1024, 1024, Jsonv.str "hi"⟩ rfl

/-- C10 counterexample: two completions share the same first fenced block,
whose interior fails to parse, and differ only in the text after it; the
fallback reply quotes the whole raw completion, so the later fenced block
changes the resulting decision. -/
theorem later_block_changes_decision_cex :
    findFenced "```json nope``` ```json \x7b\"need_image\": false, \"reply\": \"a\"\x7d```"
      = some "nope" ∧
    findFenced "```json nope``` ```json \x7b\"need_image\": false, \"reply\": \"b\"\x7d```"
      = some "nope" ∧
    parseResponse "```json nope``` ```json \x7b\"need_image\": false, \"reply\": \"a\"\x7d```"
      ≠ parseResponse "```json nope``` ```json \x7b\"need_image\": false, \"reply\": \"b\"\x7d```" := by
  refine ⟨rfl, rfl, ?_⟩
  intro hcontra
  have hproj := congrArg (fun x => match x with
    | Except.ok d =>
      match d.reply with
      | Jsonv.str s => s
      | _ => ""
    | Except.error _ => "") hcontra
  exact absurd hproj (by decide)

/-- C10 (amended): the JSON source is always the interior of the first
fenced block when one exists, and whenever that source parses successfully
(object with the required fields) the decision depends on the first block
alone — two completions with the same first block yield the same decision;
only the fallback path, which quotes the entire completion, can differ. -/
theorem first_block_determines_decision :
    (∀ raw s : String, findFenced raw = some s → tryBlock raw = processSource s) ∧
    (∀ r1 r2 s : String, findFenced r1 = some s → findFenced r2 = some s →
      (processSource s).isOk = true → parseResponse r1 = parseResponse r2) := by
  constructor
  · intro raw s hf
    unfold tryBlock extractJsonSource
    rw [hf]
    rfl
  · intro r1 r2 s hf1 hf2 hok
    unfold parseResponse tryBlock extractJsonSource
    rw [hf1, hf2]
    cases hps : processSource s with
    | ok d => simp only [Option.getD_some, hps]
    | error e =>
      rw [hps] at hok
      simp [Except.isOk, Except.toBool] at hok

theorem first_block_determines_decision_witness :
    parseResponse "```json \x7b\"need_image\": false, \"reply\": \"ok\"\x7d``` A"
      = parseResponse "```json \x7b\"need_image\": false, \"reply\": \"ok\"\x7d``` B" :=
  first_block_determines_decision.2
    "```json \x7b\"need_image\": false, \"reply\": \"ok\"\x7d``` A"
    "```json \x7b\"need_image\": false, \"reply\": \"ok\"\x7d``` B"
    "\x7b\"need_image\": false, \"reply\": \"ok\"\x7d" rfl rfl rfl

/-- C9 (confirmed): the example command parses to the expected record and a
non-numeric dimension fails to match; in general, a line built from a
non-empty whitespace-free model token, non-empty decimal digit runs for
width and height, and a non-empty prompt not starting with whitespace
parses to exactly that record with the prompt kept verbatim (embedded
whitespace and newlines included); a non-matching line is answered with
only the usage message and out-of-range dimensions with only the rejection
message — in both cases no image request is dispatched. -/
theorem create_pic_command_spec :
    createPicMatch "/create_pic flux 1024 1024 a cat"
      = some ⟨"flux", 1024, 1024, "a cat"⟩ ∧
    createPicMatch "/create_pic flux abc 1024 a cat" = none ∧
    (∀ model w h prompt : String,
      model.data ≠ [] → (∀ c ∈ model.data, isPySpace c = false) →
      w.data ≠ [] → (∀ c ∈ w.data, c.isDigit = true) →
      h.data ≠ [] → (∀ c ∈ h.data, c.isDigit = true) →
      prompt.data ≠ [] → (∀ c ∈ prompt.data.head?, isPySpace c = false) →
      createPicMatch ("/create_pic " ++ model ++ " " ++ w ++ " " ++ h ++ " " ++ prompt)
        = some ⟨model, natDigits w.data, natDigits h.data, prompt⟩) ∧
    (∀ content : String, createPicMatch content = none →
      handleCreatePic content = [.text createPicUsageText]) ∧
    (∀ (content : String) (r : ManualImageRequest), createPicMatch content = some r →
      (r.width = 0 ∨ r.height = 0 ∨ 4096 < r.width ∨ 4096 < r.height) →
      handleCreatePic content = [.text dimErrorText]) := by
  refine ⟨rfl, rfl, createPicMatch_build, ?_, ?_⟩
  · intro content hnone
    simp [handleCreatePic, hnone]
  · intro content r hsome hbad
    simp only [handleCreatePic, hsome]
    rw [if_pos (by omega)]

theorem create_pic_command_spec_witness :
    createPicMatch ("/create_pic " ++ "m" ++ " " ++ "12" ++ " " ++ "34" ++ " " ++ "a b")
      = some ⟨"m", natDigits "12".data, natDigits "34".data, "a b"⟩ ∧
    handleCreatePic "/create_pic" = [.text createPicUsageText] ∧
    handleCreatePic "/create_pic flux 0 10 cat" = [.text dimErrorText] :=
  ⟨create_pic_command_spec.2.2.1 "m" "12" "34" "a b" (by decide)
      (by intro c hc; simp at hc; subst hc; decide) (by decide)
      (by intro c hc; simp at hc; rcases hc with rfl | rfl <;> decide) (by decide)
      (by intro c hc; simp at hc; rcases hc with rfl | rfl <;> decide) (by decide)
      (by intro c hc; simp at hc; subst hc; decide),
   create_pic_command_spec.2.2.2.1 "/create_pic" rfl,
   create_pic_command_spec.2.2.2.2 "/create_pic flux 0 10 cat" ⟨"flux", 0, 10, "cat"⟩ rfl
     (Or.inl rfl)⟩
